import Mathlib

/-!
Verification development for the birth-certificate verification pipeline
(`src/app.py`).  The text-processing components, the scoring engine and the
recommendation thresholds are embedded as executable Lean definitions,
translated line by line from the source.  External computer-vision and OCR
routines (cv2, pytesseract) are collaborator boundaries: their numeric
outputs (edge-score mean, Laplacian variance, OCR text) are taken as inputs
of the embedded functions, as the specification describes.

Text is modelled as `List Char` (ASCII fragment of Python `str`); Python
integers are `ℤ`; the real-valued image statistics are `ℚ`.
-/

/-- Character class of the serial-number regex `[A-Z0-9]` (source line 73). -/
def isSerialChar (c : Char) : Bool := c.isUpper || c.isDigit

/-- Python regex word character `\w` (ASCII fragment): letter, digit or
underscore.  The `\b` boundaries of the serial regex are defined from it. -/
def isWordChar (c : Char) : Bool := c.isAlphanum || c == '_'

/-- Embedding of Python `needle in hay` prefix test helper:
`isPrefixL n h` is true when `n` is a prefix of `h`. -/
def isPrefixL : List Char → List Char → Bool
  | [], _ => true
  | _ :: _, [] => false
  | n :: ns, h :: hs => (n == h) && isPrefixL ns hs

/-- Embedding of the Python substring operator `needle in hay`. -/
def containsSub (needle : List Char) : List Char → Bool
  | [] => isPrefixL needle []
  | c :: hs => isPrefixL needle (c :: hs) || containsSub needle hs

/-- `detect_document_type` (source lines 62-70): case-insensitive (via
`.upper()`) substring search for the three phrases in fixed order. -/
def detect_document_type (text : List Char) : String :=
  let up := text.map Char.toUpper
  if containsSub ("CERTIFICATE OF BIRTH".toList) up then
    "Certificate of Birth"
  else if containsSub ("CERTIFIED TRANSCRIPT OF BIRTH".toList) up then
    "Certified Birth Transcript"
  else if containsSub ("CERTIFICATE OF LIVE BIRTH".toList) up then
    "Certificate of Live Birth"
  else
    "Unknown Document Type"

/-- True when the list is empty or starts with a non-word character: the
right-hand `\b` condition of the serial regex. -/
def headNotWord (s : List Char) : Bool :=
  match s.head? with
  | none => true
  | some c => !isWordChar c

/-- Attempt of the regex `\b[A-Z0-9]{7,12}\b` at the current position.
`prevW` records whether the character just before the position is a word
character (`false` at the start of the string).  Because `[A-Z0-9]`
characters are word characters, the greedy quantifier `{7,12}` can only
succeed by consuming the whole maximal `[A-Z0-9]` run at the position
(any shorter candidate is followed by a word character, failing the
closing `\b`); hence the attempt takes the maximal run and checks its
length and both boundaries. -/
def matchAt (prevW : Bool) (l : List Char) : Option (List Char) :=
  if prevW then none
  else if 7 ≤ (l.takeWhile isSerialChar).length ∧ (l.takeWhile isSerialChar).length ≤ 12 ∧
      headNotWord (l.dropWhile isSerialChar) = true then
    some (l.takeWhile isSerialChar)
  else none

/-- `re.search` of the serial pattern: try every position left to right,
return the first match (source line 73). -/
def findSerialAux : Bool → List Char → Option (List Char)
  | _, [] => none
  | prevW, c :: cs =>
    match matchAt prevW (c :: cs) with
    | some r => some r
    | none => findSerialAux (isWordChar c) cs

/-- `check_serial_number` (source lines 72-74): the matched token, or the
literal `"Not Found"` when the regex does not match. -/
def check_serial_number (text : List Char) : String :=
  match findSerialAux false text with
  | some r => String.mk r
  | none => "Not Found"

/-- `detect_seals_and_signatures` (source lines 76-79).  `cv2.Canny` and
`np.mean` are external; the function is embedded over the resulting mean
edge score. -/
def detect_seals_and_signatures (edge_score : ℚ) : String :=
  if edge_score > 100 then "Seal/Signature Detected" else "Seal/Signature Not Detected"

/-- Two-digit zero padding of the fractional part. -/
def pad2 (n : ℕ) : String := if n < 10 then "0" ++ toString n else toString n

/-- The value in hundredths, rounded half up: `⌊100·v + 1/2⌋`, computed as
`⌊(200·num + den) / (2·den)⌋` with integer arithmetic (`Int.fdiv` rounds
toward negative infinity and the denominator is positive). -/
def halfUpHundredths (v : ℚ) : ℤ := (200 * v.num + v.den).fdiv (2 * v.den)

/-- Model of Python `f"{x:.2f}"`: the value rounded to hundredths, rendered
with exactly two decimal digits.  (Python rounds half-to-even on the
underlying binary float; the rational model rounds half up, which only
differs on exact half-hundredths.) -/
def formatTwo (v : ℚ) : String :=
  let n : ℤ := halfUpHundredths v
  if n < 0 then "-" ++ toString ((-n) / 100) ++ "." ++ pad2 ((-n) % 100).toNat
  else toString (n / 100) ++ "." ++ pad2 (n % 100).toNat

/-- `pixelation_analysis` (source lines 81-88).  `cv2.Laplacian(...).var()`
is external; the function is embedded over the resulting variance. -/
def pixelation_analysis (laplacian_var : ℚ) : String :=
  if laplacian_var < 50 then
    "High Pixelation Detected (Possible Tampering) - Score: " ++ formatTwo laplacian_var
  else if 50 ≤ laplacian_var ∧ laplacian_var < 100 then
    "Moderate Pixelation - Score: " ++ formatTwo laplacian_var
  else
    "Low Pixelation (Likely Authentic) - Score: " ++ formatTwo laplacian_var

/-- The scoring block (source lines 102-112): sum of the four rule
contributions, each conditioned on the signal strings exactly as in the
source (`!=` comparisons for document type and serial, Python `in`
substring tests for the seal and pixelation strings). -/
def confidence_score (document_type serial_number seal_status pixelation_result : String) : ℤ :=
  (if document_type ≠ "Unknown Document Type" then 3 else 0) +
  (if serial_number ≠ "Not Found" then 2 else 0) +
  (if containsSub ("Detected".toList) seal_status.toList then 3 else 0) +
  (if containsSub ("Low Pixelation".toList) pixelation_result.toList then 2
   else if containsSub ("Moderate Pixelation".toList) pixelation_result.toList then 1
   else 0)

/-- The recommendation block (source lines 114-119). -/
def recommendation (confidence_score : ℤ) : String :=
  if confidence_score ≥ 7 then
    "✅ Proceed - Document appears valid."
  else if 5 ≤ confidence_score ∧ confidence_score < 7 then
    "⚠️ Hold for Further Review - Some inconsistencies detected."
  else
    "🚨 High Fraud Risk - Do not proceed without additional verification."

/-- The pipeline score (source lines 96-112) as a function of the OCR text
and the two external image statistics. -/
def pipelineScore (text : List Char) (edge_score laplacian_var : ℚ) : ℤ :=
  confidence_score (detect_document_type text) (check_serial_number text)
    (detect_seals_and_signatures edge_score) (pixelation_analysis laplacian_var)

/-- A BGR pixel of the decoded image (source line 92 converts the upload to
BGR channel order). -/
structure Pix where
  b : ℤ
  g : ℤ
  r : ℤ

/-- Modelled from the spec: `cv2.cvtColor(image, cv2.COLOR_BGR2GRAY)` is an
external cv2 routine; modelled as the standard luminance combination of the
three channels, rounded to an integer intensity. -/
def toGray (p : Pix) : ℤ := (299 * p.r + 587 * p.g + 114 * p.b + 500) / 1000

/-- Saturation to the valid 8-bit pixel range. -/
def clip255 (x : ℤ) : ℤ := max 0 (min 255 x)

/-- Modelled from the spec: one pass of the external
`cv2.GaussianBlur(gray, (5, 5), 0)`, as a 5-point binomial smoothing of a
row (the spec only fixes the 5×5 window; kernel weights and border
handling are modelling choices). -/
def blurRow (xs : List ℤ) : List ℤ :=
  (List.range xs.length).map fun j =>
    (xs.getD (j - 2) 0 + 4 * xs.getD (j - 1) 0 + 6 * xs.getD j 0 +
      4 * xs.getD (j + 1) 0 + xs.getD (j + 2) 0 + 8) / 16

/-- Modelled from the spec: the separable 5×5 Gaussian blur, rows then
columns. -/
def gaussian_blur_5 (g : List (List ℤ)) : List (List ℤ) :=
  ((g.map blurRow).transpose.map blurRow).transpose

/-- `preprocess_image` (source lines 51-55): grayscale, 5×5 Gaussian blur,
then `cv2.addWeighted(gray, 1.5, blurred, -0.5, 0)`, i.e. the unsharp mask
`1.5·gray − 0.5·blurred` saturated to the pixel range. -/
def preprocess_image (image : List (List Pix)) : List (List ℤ) :=
  let gray := image.map (List.map toGray)
  let blurred := gaussian_blur_5 gray
  (gray.zip blurred).map fun rb =>
    (rb.1.zip rb.2).map fun gb => clip255 ((3 * gb.1 - gb.2 + 1) / 2)

/-- `extract_text` (source lines 57-60).  The OCR engine
(`pytesseract.image_to_string`, `--psm 6`) is an external collaborator;
modelled from the spec as a total text-valued function of the preprocessed
image, reporting the empty text when recognition fails. -/
def extract_text (ocr : List (List ℤ) → List Char) (image : List (List Pix)) : List Char :=
  ocr (preprocess_image image)

/-- Whether the character just before the position following `p` is a word
character (the word flag of `p`'s last character), given that `prevW`
holds this flag for the position at the start of `p`. -/
def prevWAfter (prevW : Bool) : List Char → Bool
  | [] => prevW
  | c :: p => prevWAfter (isWordChar c) p

/-- Declarative reading of a hit of the regex `\b[A-Z0-9]{7,12}\b` inside
`l`, at the position right after the prefix `p` (with `prevW` the
word-character flag holding before `l` itself): the matched token `r` is a
run of 7–12 uppercase letters/digits, the character before it (if any) is
not a word character, and neither is the character after it. -/
def MatchSplit (prevW : Bool) (l p r s : List Char) : Prop :=
  l = p ++ r ++ s ∧ r.all isSerialChar = true ∧ 7 ≤ r.length ∧ r.length ≤ 12 ∧
  prevWAfter prevW p = false ∧ headNotWord s = true

lemma word_of_serial {c : Char} (h : isSerialChar c = true) : isWordChar c = true := by
  simp only [isSerialChar, Bool.or_eq_true] at h
  simp only [isWordChar, Char.isAlphanum, Char.isAlpha, Bool.or_eq_true]
  tauto

lemma prevWAfter_cons (prevW : Bool) (c : Char) (p : List Char) :
    prevWAfter prevW (c :: p) = prevWAfter (isWordChar c) p := rfl

lemma isPrefixL_of_append (n s : List Char) : isPrefixL n (n ++ s) = true := by
  induction n with
  | nil => simp [isPrefixL]
  | cons a as ih => simp [isPrefixL, ih]

lemma containsSub_of_head (n h : List Char) (hp : isPrefixL n h = true) :
    containsSub n h = true := by
  cases h with
  | nil => simpa [containsSub] using hp
  | cons c hs => simp [containsSub, hp]

lemma containsSub_append (n p s : List Char) : containsSub n (p ++ (n ++ s)) = true := by
  induction p with
  | nil => exact containsSub_of_head _ _ (isPrefixL_of_append n s)
  | cons c cs ih => simp [containsSub, ih]

lemma takeWhile_append_all {r s : List Char} (hr : r.all isSerialChar = true)
    (hs : headNotWord s = true) :
    (r ++ s).takeWhile isSerialChar = r ∧ (r ++ s).dropWhile isSerialChar = s := by
  induction r with
  | nil =>
    simp only [List.nil_append]
    cases s with
    | nil => simp
    | cons c cs =>
      have hw : isWordChar c = false := by simpa [headNotWord] using hs
      have hser : isSerialChar c = false := by
        cases hsc : isSerialChar c
        · rfl
        · exact absurd (word_of_serial hsc) (by simp [hw])
      simp [List.takeWhile_cons, List.dropWhile_cons, hser]
  | cons a as ih =>
    simp only [List.all_cons, Bool.and_eq_true] at hr
    have := ih hr.2
    simp [List.takeWhile_cons, List.dropWhile_cons, hr.1, this.1, this.2]

lemma matchAt_eq_some {prevW : Bool} {l r : List Char} (h : matchAt prevW l = some r) :
    prevW = false ∧ MatchSplit false l [] r (l.dropWhile isSerialChar) := by
  unfold matchAt at h
  split at h
  · exact absurd h (by simp)
  next hpw =>
    have hpw' : prevW = false := by simpa using hpw
    split at h
    next hcond =>
      obtain ⟨h7, h12, hnw⟩ := hcond
      have hr : l.takeWhile isSerialChar = r := by injection h
      subst hr
      exact ⟨hpw', by simp, List.all_takeWhile, h7, h12, rfl, hnw⟩
    next => exact absurd h (by simp)

lemma matchAt_complete {l r s : List Char} (hl : l = r ++ s)
    (hr : r.all isSerialChar = true) (h7 : 7 ≤ r.length) (h12 : r.length ≤ 12)
    (hs : headNotWord s = true) : matchAt false l = some r := by
  subst hl
  obtain ⟨ht, hd⟩ := takeWhile_append_all hr hs
  unfold matchAt
  simp [ht, hd, h7, h12, hs]

lemma findSerialAux_some : ∀ (l : List Char) (prevW : Bool) (r : List Char),
    findSerialAux prevW l = some r →
    ∃ p s, MatchSplit prevW l p r s ∧
      ∀ p' r' s', MatchSplit prevW l p' r' s' → p.length ≤ p'.length := by
  intro l
  induction l with
  | nil => intro prevW r h; simp [findSerialAux] at h
  | cons c cs ih =>
    intro prevW r h
    rw [findSerialAux] at h
    cases hm : matchAt prevW (c :: cs) with
    | some r0 =>
      rw [hm] at h
      have hr : r0 = r := by injection h
      subst hr
      obtain ⟨hpw, hms⟩ := matchAt_eq_some hm
      subst hpw
      exact ⟨[], _, hms, fun p' r' s' _ => Nat.zero_le _⟩
    | none =>
      rw [hm] at h
      obtain ⟨p, s, hms, hmin⟩ := ih (isWordChar c) r h
      obtain ⟨hl, hall, h7, h12, hL, hR⟩ := hms
      refine ⟨c :: p, s, ⟨by rw [hl]; rfl, hall, h7, h12, hL, hR⟩, ?_⟩
      intro p' r' s' hms'
      obtain ⟨hl', hall', h7', h12', hL', hR'⟩ := hms'
      cases p' with
      | nil =>
        exfalso
        have hpw : prevW = false := hL'
        subst hpw
        have := matchAt_complete (by simpa using hl') hall' h7' h12' hR'
        rw [this] at hm
        exact Option.noConfusion hm
      | cons c0 p'' =>
        have hl2 : c :: cs = c0 :: (p'' ++ r' ++ s') := by simpa using hl'
        injection hl2 with hc0 hcs
        subst hc0
        have hms'' : MatchSplit (isWordChar c) cs p'' r' s' :=
          ⟨hcs, hall', h7', h12', hL', hR'⟩
        have := hmin p'' r' s' hms''
        simpa [List.length_cons] using Nat.succ_le_succ this

lemma findSerialAux_none : ∀ (l : List Char) (prevW : Bool),
    findSerialAux prevW l = none → ∀ p r s, ¬ MatchSplit prevW l p r s := by
  intro l
  induction l with
  | nil =>
    intro prevW _ p r s hms
    obtain ⟨hl, _, h7, _, _, _⟩ := hms
    have := congrArg List.length hl
    simp [List.length_append] at this
    omega
  | cons c cs ih =>
    intro prevW h p r s hms
    rw [findSerialAux] at h
    cases hm : matchAt prevW (c :: cs) with
    | some r0 => rw [hm] at h; exact Option.noConfusion h
    | none =>
      rw [hm] at h
      obtain ⟨hl, hall, h7, h12, hL, hR⟩ := hms
      cases p with
      | nil =>
        have hpw : prevW = false := hL
        subst hpw
        have := matchAt_complete (by simpa using hl) hall h7 h12 hR
        rw [this] at hm
        exact Option.noConfusion hm
      | cons c0 p'' =>
        have hl2 : c :: cs = c0 :: (p'' ++ r ++ s) := by simpa using hl
        injection hl2 with hc0 hcs
        subst hc0
        exact ih (isWordChar c) h p'' r s ⟨hcs, hall, h7, h12, hL, hR⟩

lemma seal_contains_detected (es : ℚ) :
    containsSub ("Detected".toList) (detect_seals_and_signatures es).toList = true := by
  unfold detect_seals_and_signatures
  split
  · decide
  · decide

lemma detect_document_type_ne_unknown {text : List Char}
    (h : containsSub ("CERTIFICATE OF BIRTH".toList) (text.map Char.toUpper) = true ∨
         containsSub ("CERTIFIED TRANSCRIPT OF BIRTH".toList) (text.map Char.toUpper) = true ∨
         containsSub ("CERTIFICATE OF LIVE BIRTH".toList) (text.map Char.toUpper) = true) :
    detect_document_type text ≠ "Unknown Document Type" := by
  cases h1 : containsSub ("CERTIFICATE OF BIRTH".toList) (text.map Char.toUpper) <;>
    cases h2 : containsSub ("CERTIFIED TRANSCRIPT OF BIRTH".toList) (text.map Char.toUpper) <;>
      cases h3 : containsSub ("CERTIFICATE OF LIVE BIRTH".toList) (text.map Char.toUpper) <;>
        simp_all [detect_document_type]

/-- C2: both strings `detect_seals_and_signatures` can return contain the
substring "Detected", so the seal branch of the scorer contributes +3
regardless of the verdict; consequently every score produced by the
pipeline is at least 3, and a score of 0 is unreachable through it. -/
theorem seal_branch_always_adds_three :
    (∀ es : ℚ, containsSub ("Detected".toList) (detect_seals_and_signatures es).toList = true) ∧
    (∀ (text : List Char) (es v : ℚ), 3 ≤ pipelineScore text es v) ∧
    (∀ (text : List Char) (es v : ℚ), pipelineScore text es v ≠ 0) := by
  have hge : ∀ (text : List Char) (es v : ℚ), 3 ≤ pipelineScore text es v := by
    intro t es v
    unfold pipelineScore confidence_score
    split_ifs <;>
      first
        | omega
        | exact absurd (seal_contains_detected es) (by assumption)
  exact ⟨seal_contains_detected, hge, fun t es v h0 => by have := hge t es v; omega⟩

/-- C4: the recommendation is Proceed exactly for scores at least 7,
HoldForReview exactly on [5,7), HighFraudRisk exactly below 5 (in
particular at 7, 6, 5 and 4); every score the scorer can emit is at most
10, and 10 is attained by a pipeline run. -/
theorem recommendation_thresholds_and_max_score :
    (∀ s : ℤ,
      (recommendation s = "✅ Proceed - Document appears valid." ↔ 7 ≤ s) ∧
      (recommendation s = "⚠️ Hold for Further Review - Some inconsistencies detected." ↔
        5 ≤ s ∧ s < 7) ∧
      (recommendation s = "🚨 High Fraud Risk - Do not proceed without additional verification." ↔
        s < 5)) ∧
    recommendation 7 = "✅ Proceed - Document appears valid." ∧
    recommendation 6 = "⚠️ Hold for Further Review - Some inconsistencies detected." ∧
    recommendation 5 = "⚠️ Hold for Further Review - Some inconsistencies detected." ∧
    recommendation 4 = "🚨 High Fraud Risk - Do not proceed without additional verification." ∧
    (∀ a b c d : String, confidence_score a b c d ≤ 10) ∧
    pipelineScore ("CERTIFICATE OF BIRTH".toList) 150 200 = 10 := by
  refine ⟨?_, by decide, by decide, by decide, by decide, ?_, by decide⟩
  · intro s
    unfold recommendation
    split_ifs with h1 h2
    · exact ⟨⟨fun _ => h1, fun _ => rfl⟩,
        ⟨fun hEq => absurd hEq (by decide), fun hc => (by omega : False).elim⟩,
        ⟨fun hEq => absurd hEq (by decide), fun hc => (by omega : False).elim⟩⟩
    · exact ⟨⟨fun hEq => absurd hEq (by decide), fun hc => (by omega : False).elim⟩,
        ⟨fun _ => h2, fun _ => rfl⟩,
        ⟨fun hEq => absurd hEq (by decide), fun hc => (by omega : False).elim⟩⟩
    · have h5 : s < 5 := by
        by_contra hge
        push_neg at hge
        exact h2 ⟨hge, by omega⟩
      exact ⟨⟨fun hEq => absurd hEq (by decide), fun hc => (by omega : False).elim⟩,
        ⟨fun hEq => absurd hEq (by decide), fun hc => (by omega : False).elim⟩,
        ⟨fun _ => h5, fun _ => rfl⟩⟩
  · intro a b c d
    unfold confidence_score
    split_ifs <;> omega

/-- C5: document classification is a substring search on the uppercased
text in the fixed order "CERTIFICATE OF BIRTH", "CERTIFIED TRANSCRIPT OF
BIRTH", "CERTIFICATE OF LIVE BIRTH"; the first phrase found wins, no match
yields Unknown, and the result is always exactly one of the four labels. -/
theorem detect_document_type_priority :
    ∀ text : List Char,
      (detect_document_type text = "Certificate of Birth" ↔
        containsSub ("CERTIFICATE OF BIRTH".toList) (text.map Char.toUpper) = true) ∧
      (detect_document_type text = "Certified Birth Transcript" ↔
        containsSub ("CERTIFICATE OF BIRTH".toList) (text.map Char.toUpper) = false ∧
        containsSub ("CERTIFIED TRANSCRIPT OF BIRTH".toList) (text.map Char.toUpper) = true) ∧
      (detect_document_type text = "Certificate of Live Birth" ↔
        containsSub ("CERTIFICATE OF BIRTH".toList) (text.map Char.toUpper) = false ∧
        containsSub ("CERTIFIED TRANSCRIPT OF BIRTH".toList) (text.map Char.toUpper) = false ∧
        containsSub ("CERTIFICATE OF LIVE BIRTH".toList) (text.map Char.toUpper) = true) ∧
      (detect_document_type text = "Unknown Document Type" ↔
        containsSub ("CERTIFICATE OF BIRTH".toList) (text.map Char.toUpper) = false ∧
        containsSub ("CERTIFIED TRANSCRIPT OF BIRTH".toList) (text.map Char.toUpper) = false ∧
        containsSub ("CERTIFICATE OF LIVE BIRTH".toList) (text.map Char.toUpper) = false) ∧
      (detect_document_type text = "Certificate of Birth" ∨
       detect_document_type text = "Certified Birth Transcript" ∨
       detect_document_type text = "Certificate of Live Birth" ∨
       detect_document_type text = "Unknown Document Type") := by
  intro text
  cases h1 : containsSub ("CERTIFICATE OF BIRTH".toList) (text.map Char.toUpper) <;>
    cases h2 : containsSub ("CERTIFIED TRANSCRIPT OF BIRTH".toList) (text.map Char.toUpper) <;>
      cases h3 : containsSub ("CERTIFICATE OF LIVE BIRTH".toList) (text.map Char.toUpper) <;>
        simp_all [detect_document_type]

/-- C1 divergence witness: with document type Unknown, serial not found,
the seal verdict string produced for a low edge score (Not Detected) and a
high-pixelation result, the §4.5 rule table of the claim sums to 0, but
the scoring block computes 3: the seal test `"Detected" in seal_status`
also matches "Seal/Signature Not Detected". -/
theorem confidence_score_seal_rule_divergence :
    detect_seals_and_signatures 50 = "Seal/Signature Not Detected" ∧
    confidence_score "Unknown Document Type" "Not Found"
      (detect_seals_and_signatures 50)
      "High Pixelation Detected (Possible Tampering) - Score: 0.00" = 3 := by decide

/-- C3 divergence witness: end-to-end scenario 2 (no phrase, no token, seal
Not-Detected, high pixelation) does not score 0 on the code: the seal
branch still adds +3, yielding 3; only the HighFraudRisk recommendation
part of the scenario holds. -/
theorem scenario_two_divergence :
    pixelation_analysis 0 = "High Pixelation Detected (Possible Tampering) - Score: 0.00" ∧
    confidence_score "Unknown Document Type" "Not Found"
      "Seal/Signature Not Detected" (pixelation_analysis 0) = 3 ∧
    recommendation 3 =
      "🚨 High Fraud Risk - Do not proceed without additional verification." := by decide

/-- C7: the pixelation verdict is High exactly when the Laplacian variance
is below 50, Moderate exactly on [50,100), Low exactly at 100 or above,
and the returned string carries the variance rendered to two decimal
places alongside the verdict. -/
theorem pixelation_analysis_thresholds :
    ∀ v : ℚ,
      (pixelation_analysis v =
          "High Pixelation Detected (Possible Tampering) - Score: " ++ formatTwo v ↔ v < 50) ∧
      (pixelation_analysis v = "Moderate Pixelation - Score: " ++ formatTwo v ↔
        50 ≤ v ∧ v < 100) ∧
      (pixelation_analysis v =
          "Low Pixelation (Likely Authentic) - Score: " ++ formatTwo v ↔ 100 ≤ v) := by
  intro v
  have hlen : ∀ a b : String, a.length ≠ b.length → a ++ formatTwo v ≠ b ++ formatTwo v := by
    intro a b hab hEq
    apply hab
    have hl := congrArg String.length hEq
    simp only [String.length_append] at hl
    omega
  unfold pixelation_analysis
  split_ifs with h1 h2
  · exact ⟨⟨fun _ => h1, fun _ => rfl⟩,
      ⟨fun hEq => absurd hEq (hlen _ _ (by decide)), fun hc => (by linarith : False).elim⟩,
      ⟨fun hEq => absurd hEq (hlen _ _ (by decide)), fun hc => (by linarith : False).elim⟩⟩
  · exact ⟨⟨fun hEq => absurd hEq (hlen _ _ (by decide)), fun hc => (by linarith : False).elim⟩,
      ⟨fun _ => h2, fun _ => rfl⟩,
      ⟨fun hEq => absurd hEq (hlen _ _ (by decide)), fun hc => (by linarith : False).elim⟩⟩
  · have h100 : 100 ≤ v := by
      by_contra hlt
      push_neg at hlt
      exact h2 ⟨by linarith, hlt⟩
    exact ⟨⟨fun hEq => absurd hEq (hlen _ _ (by decide)), fun hc => (by linarith : False).elim⟩,
      ⟨fun hEq => absurd hEq (hlen _ _ (by decide)), fun hc => (by linarith : False).elim⟩,
      ⟨fun _ => h100, fun _ => rfl⟩⟩

/-- C8: text extraction is the pure composition of the pre-conditioning
with the OCR engine, which the spec models as total with empty text on
recognition failure; so `extract_text` never fails, an empty OCR result
propagates as empty extracted text, and on empty text the downstream
components yield Unknown and not-found. -/
theorem extract_text_total_and_degrades :
    (∀ (ocr : List (List ℤ) → List Char) (image : List (List Pix)),
      extract_text ocr image = ocr (preprocess_image image)) ∧
    (∀ (ocr : List (List ℤ) → List Char) (image : List (List Pix)),
      ocr (preprocess_image image) = [] → extract_text ocr image = []) ∧
    detect_document_type [] = "Unknown Document Type" ∧
    check_serial_number [] = "Not Found" :=
  ⟨fun _ _ => rfl, fun _ _ h => h, by decide, by decide⟩

/-- C8 witness: a failing OCR engine (constantly empty) yields empty
extracted text on a concrete image. -/
theorem extract_text_total_and_degrades_witness :
    extract_text (fun _ => ([] : List Char)) ([] : List (List Pix)) = [] :=
  extract_text_total_and_degrades.2.1 _ _ rfl

/-- C10: classification depends only on the uppercased text, hence is
case-insensitive, while serial detection is case-sensitive: the lowercase
rendering "certificate of birth" classifies to a non-Unknown label yet
yields serial Not Found, since the pattern admits only uppercase letters
and digits. -/
theorem classify_case_insensitive_serial_case_sensitive :
    (∀ t u : List Char, t.map Char.toUpper = u.map Char.toUpper →
      detect_document_type t = detect_document_type u) ∧
    detect_document_type ("certificate of birth".toList) = "Certificate of Birth" ∧
    check_serial_number ("certificate of birth".toList) = "Not Found" := by
  refine ⟨?_, by decide, by decide⟩
  intro t u h
  unfold detect_document_type
  rw [h]

/-- C10 witness: a mixed-case and an uppercase rendering of the same text
classify identically. -/
theorem classify_case_insensitive_witness :
    detect_document_type ("Certificate Of Birth".toList) =
      detect_document_type ("CERTIFICATE OF BIRTH".toList) :=
  classify_case_insensitive_serial_case_sensitive.1 _ _ (by decide)

/-- C6 (amended: the regex word boundaries treat underscore as a word
character, not only alphanumerics): `check_serial_number` returns the token
of the leftmost hit of the serial pattern — a run of 7–12 uppercase
letters/digits not adjacent to word characters — and the "Not Found"
marker exactly when no such hit exists; in particular any returned token
is a 7–12-character uppercase-alphanumeric string. -/
theorem check_serial_number_characterization :
    ∀ text : List Char,
      (∀ r, findSerialAux false text = some r →
        check_serial_number text = String.mk r ∧
        ∃ p s, MatchSplit false text p r s ∧
          ∀ p' r' s', MatchSplit false text p' r' s' → p.length ≤ p'.length) ∧
      (findSerialAux false text = none →
        check_serial_number text = "Not Found" ∧
        ∀ p r s, ¬ MatchSplit false text p r s) := by
  intro text
  constructor
  · intro r h
    exact ⟨by simp [check_serial_number, h], findSerialAux_some text false r h⟩
  · intro h
    exact ⟨by simp [check_serial_number, h], findSerialAux_none text false h⟩

/-- C6 witness: on "ab ABCDEFG!" the scanner returns the token ABCDEFG,
which is a leftmost word-boundary-delimited 7-character run. -/
theorem check_serial_number_characterization_witness :
    check_serial_number ("ab ABCDEFG!".toList) = String.mk ("ABCDEFG".toList) ∧
    ∃ p s, MatchSplit false ("ab ABCDEFG!".toList) p ("ABCDEFG".toList) s ∧
      ∀ p' r' s', MatchSplit false ("ab ABCDEFG!".toList) p' r' s' → p.length ≤ p'.length :=
  (check_serial_number_characterization ("ab ABCDEFG!".toList)).1 ("ABCDEFG".toList) (by decide)

/-- C6 counterexample to the claim's gloss that word boundaries mean "not
adjacent to other alphanumeric characters": in "_ABCDEFG" the 7-character
uppercase run is adjacent only to an underscore — not an alphanumeric
character — yet Python's `\b` treats the underscore as a word character,
and the code reports "Not Found" instead of the run. -/
theorem serial_boundary_gloss_counterexample :
    "_ABCDEFG".toList = '_' :: "ABCDEFG".toList ∧
    ("ABCDEFG".toList).all isSerialChar = true ∧
    ("ABCDEFG".toList).length = 7 ∧
    Char.isAlphanum '_' = false ∧
    check_serial_number ("_ABCDEFG".toList) = "Not Found" := by decide

/-- C9 (amended: the phrase occurrence must itself start at a word
boundary): when the text contains one of the three classifier phrases as
an exact uppercase substring not immediately preceded by a word character,
the leading word of the phrase (CERTIFICATE or CERTIFIED, 9–11 uppercase
letters) is a word-boundary-delimited serial candidate, so
`check_serial_number` returns a token and classification succeeds, i.e.
the +3 document contribution is accompanied by the +2 serial one. -/
theorem serial_found_on_bounded_phrase :
    ∀ text pre ph post : List Char,
      (ph = "CERTIFICATE OF BIRTH".toList ∨ ph = "CERTIFIED TRANSCRIPT OF BIRTH".toList ∨
        ph = "CERTIFICATE OF LIVE BIRTH".toList) →
      text = pre ++ ph ++ post →
      prevWAfter false pre = false →
      check_serial_number text ≠ "Not Found" ∧
      detect_document_type text ≠ "Unknown Document Type" := by
  intro text pre ph post hph htext hpre
  have hms : ∃ r s, MatchSplit false text pre r s := by
    rcases hph with h | h | h <;> subst h
    · refine ⟨"CERTIFICATE".toList, " OF BIRTH".toList ++ post, ?_, by decide, by decide,
        by decide, hpre, rfl⟩
      rw [htext]
      have hsplit : "CERTIFICATE OF BIRTH".toList =
          "CERTIFICATE".toList ++ " OF BIRTH".toList := by decide
      rw [hsplit]
      simp [List.append_assoc]
    · refine ⟨"CERTIFIED".toList, " TRANSCRIPT OF BIRTH".toList ++ post, ?_, by decide,
        by decide, by decide, hpre, rfl⟩
      rw [htext]
      have hsplit : "CERTIFIED TRANSCRIPT OF BIRTH".toList =
          "CERTIFIED".toList ++ " TRANSCRIPT OF BIRTH".toList := by decide
      rw [hsplit]
      simp [List.append_assoc]
    · refine ⟨"CERTIFICATE".toList, " OF LIVE BIRTH".toList ++ post, ?_, by decide, by decide,
        by decide, hpre, rfl⟩
      rw [htext]
      have hsplit : "CERTIFICATE OF LIVE BIRTH".toList =
          "CERTIFICATE".toList ++ " OF LIVE BIRTH".toList := by decide
      rw [hsplit]
      simp [List.append_assoc]
  constructor
  · cases hfind : findSerialAux false text with
    | none =>
      exfalso
      obtain ⟨r, s, hms'⟩ := hms
      exact findSerialAux_none text false hfind pre r s hms'
    | some r =>
      obtain ⟨p0, s0, hms0, _⟩ := findSerialAux_some text false r hfind
      have hall : r.all isSerialChar = true := hms0.2.1
      intro hcontra
      have hR : String.mk r = "Not Found" := by
        rw [check_serial_number, hfind] at hcontra
        exact hcontra
      have hr : r = "Not Found".toList := congrArg String.toList hR
      rw [hr] at hall
      exact absurd hall (by decide)
  · apply detect_document_type_ne_unknown
    have hup : ∀ q : List Char,
        (q = "CERTIFICATE OF BIRTH".toList ∨ q = "CERTIFIED TRANSCRIPT OF BIRTH".toList ∨
          q = "CERTIFICATE OF LIVE BIRTH".toList) → q.map Char.toUpper = q := by
      intro q hq
      rcases hq with h | h | h <;> subst h <;> decide
    have hcontains : containsSub ph (text.map Char.toUpper) = true := by
      rw [htext]
      simp only [List.map_append]
      rw [hup ph hph, List.append_assoc]
      exact containsSub_append ph (pre.map Char.toUpper) (post.map Char.toUpper)
    rcases hph with h | h | h <;> subst h
    · exact Or.inl hcontains
    · exact Or.inr (Or.inl hcontains)
    · exact Or.inr (Or.inr hcontains)

/-- C9 witness: the bare phrase "CERTIFICATE OF BIRTH" yields both a serial
token (CERTIFICATE) and a successful classification. -/
theorem serial_found_on_bounded_phrase_witness :
    check_serial_number ("CERTIFICATE OF BIRTH".toList) ≠ "Not Found" ∧
    detect_document_type ("CERTIFICATE OF BIRTH".toList) ≠ "Unknown Document Type" :=
  serial_found_on_bounded_phrase ("CERTIFICATE OF BIRTH".toList) []
    ("CERTIFICATE OF BIRTH".toList) [] (Or.inl rfl) (by simp) rfl

/-- C9 counterexample to the claim as stated: "xCERTIFICATE OF BIRTHy"
contains the phrase as an exact uppercase substring and classifies
accordingly, yet every uppercase run in it touches a lowercase word
character, so the serial is Not Found and the +2 contribution is missed. -/
theorem serial_phrase_counterexample :
    containsSub ("CERTIFICATE OF BIRTH".toList) ("xCERTIFICATE OF BIRTHy".toList) = true ∧
    detect_document_type ("xCERTIFICATE OF BIRTHy".toList) = "Certificate of Birth" ∧
    check_serial_number ("xCERTIFICATE OF BIRTHy".toList) = "Not Found" := by decide
